import Mathlib

/-!
Verification of the BabyBeat beat-detection and BPM-estimation core.

This development gives a shallow embedding, over exact rationals, of the
beat-tracking logic found in the BabyBeat repository and proves or refutes
the testable properties stated for it.  Three variants of the detector are
embedded:

* the `BeatTracker` class of `public/babybeat-core.js` (the hysteresis
  rise/fall tracker with `_register`, also present verbatim in one of the
  unnamed source files);
* the inline interval-registration step of `onAudioProcess` in the first
  section of `public/babybeat-core.js` (the `beatIntervals` / `bpmDisplay`
  update applied when a candidate beat fires);
* the `registerBeat` / `calculateBeatQuality` pair of the advanced variant
  (the unnamed source file with quality-weighted intervals).

JavaScript numbers are modelled by `ℚ`; the numeric literals of the source
(0.12, 0.8, 60000, ...) are carried over exactly.  Array `slice`, `push`
plus capped `shift`, `sort` with a numeric comparator, `Math.round`,
`Math.min` / `Math.max` and the exponential moving average are each given a
direct counterpart below.
-/

/-- JavaScript `arr.slice(start)` for an integer `start`: a negative start
counts from the end of the array, clamped at zero. -/
def jsSlice {α : Type} (l : List α) (start : ℤ) : List α :=
  if start < 0 then l.drop ((l.length : ℤ) + start).toNat
  else l.drop start.toNat

/-- The `push` plus bounded `shift` idiom: `l.push(x); if (l.length > cap) l.shift()`. -/
def cappedPush {α : Type} (l : List α) (x : α) (cap : ℕ) : List α :=
  let l0 := l ++ [x]
  if cap < l0.length then l0.tail else l0

/-- The `clamp(v, lo, hi) = Math.min(hi, Math.max(lo, v))` helper of the source. -/
def clamp (v lo hi : ℚ) : ℚ := min hi (max lo v)

/-- The `ema(prev, value, alpha) = prev + alpha * (value - prev)` helper of the source. -/
def ema (prev value alpha : ℚ) : ℚ := prev + alpha * (value - prev)

/-- Insertion step for an ascending sort of rationals. -/
def insertAsc (x : ℚ) : List ℚ → List ℚ
  | [] => [x]
  | y :: ys => if x ≤ y then x :: y :: ys else y :: insertAsc x ys

/-- Ascending sort, the effect of `arr.sort((a, b) => a - b)` on rational values. -/
def sortAsc (l : List ℚ) : List ℚ := l.foldr insertAsc []

/-- The `median` helper of the source: 0 on an empty array, middle element of
the sorted copy for odd length, mean of the two middle elements otherwise. -/
def median (arr : List ℚ) : ℚ :=
  if arr.length = 0 then 0
  else
    let a := sortAsc arr
    let m := a.length / 2
    if a.length % 2 = 1 then a.getD m 0 else (a.getD (m - 1) 0 + a.getD m 0) / 2

/-- JavaScript `Math.round`: round half toward positive infinity. -/
def jsRound (q : ℚ) : ℤ := ⌊q + 1 / 2⌋

/-- Options accepted by the `BeatTracker` constructor
(`public/babybeat-core.js`, second section); `none` selects the tunable
defaults `MIN_BEATS_TO_CONFIRM = 4`, `INTERVAL_TOLERANCE = 0.12`,
`MIN_INTERVAL_MS = 300`, `MAX_INTERVAL_MS = 1200`, `REFRACTORY_MS = 260`. -/
structure TrackerOpts where
  minBeats : Option ℤ
  tolerance : Option ℚ
  minInterval : Option ℚ
  maxInterval : Option ℚ
  refractory : Option ℚ
deriving Repr, DecidableEq

/-- The empty options object, `new BeatTracker({})`. -/
def defaultOpts : TrackerOpts := ⟨none, none, none, none, none⟩

/-- State of the `BeatTracker` class: configuration fields, the hysteresis
state machine (`_state` is `true` for the source string `above`, `false` for
`below`), `_lastBeatAt`, `_peak`, and the rolling pattern state. -/
structure Tracker where
  minBeats : ℤ
  tolerance : ℚ
  minInterval : ℚ
  maxInterval : ℚ
  refractory : ℚ
  lastBeatAt : ℚ
  state : Bool
  peak : ℚ
  thresholdRise : ℚ
  thresholdFall : ℚ
  intervals : List ℚ
  hasPattern : Bool
  bpm : Option ℚ
  confidence : ℚ
deriving Repr, DecidableEq

/-- Result object of `BeatTracker.process`. -/
structure TOut where
  beat : Bool
  bpm : Option ℚ
  hasPattern : Bool
  confidence : ℚ
deriving Repr, DecidableEq

/-- The `BeatTracker` constructor (`public/babybeat-core.js`).  Every option
is stored as given; no validation of any kind is performed. -/
def mkTracker (o : TrackerOpts) : Tracker :=
  { minBeats := o.minBeats.getD 4
    tolerance := o.tolerance.getD (12 / 100)
    minInterval := o.minInterval.getD 300
    maxInterval := o.maxInterval.getD 1200
    refractory := o.refractory.getD 260
    lastBeatAt := 0
    state := false
    peak := 0
    thresholdRise := 12 / 100
    thresholdFall := 8 / 100
    intervals := []
    hasPattern := false
    bpm := none
    confidence := 0 }

/-- `BeatTracker._register(dt)`: push `dt` (capped at 10 entries,
oldest-first eviction), then, once at least `minBeats - 1` intervals are
recorded, test whether the most recent `minBeats - 1` intervals all lie
within `tolerance * median` of their own median; on success set the lock,
the rounded and clamped BPM (`MIN_FETAL_BPM = 100`, `MAX_FETAL_BPM = 170`)
and the confidence, otherwise clear all three. -/
def register (t : Tracker) (dt : ℚ) : Tracker :=
  let ints := cappedPush t.intervals dt 10
  if t.minBeats - 1 ≤ (ints.length : ℤ) then
    let recent := jsSlice ints (1 - t.minBeats)
    let med := median recent
    if ∀ i ∈ recent, |i - med| ≤ t.tolerance * med then
      let sm := median (jsSlice ints (-6))
      { t with intervals := ints
               hasPattern := true
               bpm := some (min 170 (max 100 ((jsRound (60000 / sm) : ℤ) : ℚ)))
               confidence := min 1 ((ints.length : ℚ) / 10 * (4 / 5) + 1 / 5) }
    else
      { t with intervals := ints, hasPattern := false, bpm := none, confidence := 0 }
  else
    { t with intervals := ints, hasPattern := false, bpm := none, confidence := 0 }

/-- Build the result object of `process` from the post-step state. -/
def tout (t : Tracker) (beat : Bool) : Tracker × TOut :=
  (t, ⟨beat, t.bpm, t.hasPattern, t.confidence⟩)

/-- `BeatTracker.process(level, now)`: hysteresis rise/fall detection; on a
falling edge with `dt > refractory && dt >= minInterval && dt <= maxInterval`
the beat is accepted, `_lastBeatAt` is set and `_register(dt)` runs; the
peak memory decays by 0.8 after a falling edge and by 0.98 while below. -/
def process (t : Tracker) (level now : ℚ) : Tracker × TOut :=
  if t.state = false ∧ t.peak + t.thresholdRise < level then
    tout { t with state := true, peak := level } false
  else if t.state = true then
    let t1 := if t.peak < level then { t with peak := level } else t
    if t.state = true ∧ level < t.peak - t.thresholdFall then
      let dt := now - t.lastBeatAt
      if t.refractory < dt ∧ t.minInterval ≤ dt ∧ dt ≤ t.maxInterval then
        let t2 := register { t1 with lastBeatAt := now } dt
        tout { t2 with state := false, peak := t2.peak * (4 / 5) } true
      else
        tout { t1 with state := false, peak := t1.peak * (4 / 5) } false
    else
      tout t1 false
  else
    let p0 := max 0 (t.peak * (98 / 100))
    tout { t with peak := if p0 < level then level else p0 } false

/-- `BeatTracker.reset()`: clear all rolling state, keeping the
configuration and hysteresis thresholds (which nothing ever mutates). -/
def reset (t : Tracker) : Tracker :=
  { t with lastBeatAt := 0
           state := false
           peak := 0
           intervals := []
           hasPattern := false
           bpm := none
           confidence := 0 }

/-- Feed a sequence of `(level, now)` frames to a tracker, collecting the
final state and the result objects in order. -/
def runFrom (t : Tracker) : List (ℚ × ℚ) → Tracker × List TOut
  | [] => (t, [])
  | p :: ps =>
    let r := process t p.1 p.2
    let rest := runFrom r.1 ps
    (rest.1, r.2 :: rest.2)

/-- Variant of `process` with the refractory conjunct removed from the
acceptance test, used to compare against `process` for the refinement
claim about the redundancy of the refractory parameter. -/
def processNR (t : Tracker) (level now : ℚ) : Tracker × TOut :=
  if t.state = false ∧ t.peak + t.thresholdRise < level then
    tout { t with state := true, peak := level } false
  else if t.state = true then
    let t1 := if t.peak < level then { t with peak := level } else t
    if t.state = true ∧ level < t.peak - t.thresholdFall then
      let dt := now - t.lastBeatAt
      if t.minInterval ≤ dt ∧ dt ≤ t.maxInterval then
        let t2 := register { t1 with lastBeatAt := now } dt
        tout { t2 with state := false, peak := t2.peak * (4 / 5) } true
      else
        tout { t1 with state := false, peak := t1.peak * (4 / 5) } false
    else
      tout t1 false
  else
    let p0 := max 0 (t.peak * (98 / 100))
    tout { t with peak := if p0 < level then level else p0 } false

/-- Runner for the refractory-free variant. -/
def runFromNR (t : Tracker) : List (ℚ × ℚ) → Tracker × List TOut
  | [] => (t, [])
  | p :: ps =>
    let r := processNR t p.1 p.2
    let rest := runFromNR r.1 ps
    (rest.1, r.2 :: rest.2)

/-- Beat-registration state of the first `onAudioProcess` section of
`public/babybeat-core.js`: `lastBeatTime`, the `beatIntervals` array and the
smoothed `bpmDisplay` (0 meaning none yet). -/
structure AState where
  lastBeatTime : ℚ
  beatIntervals : List ℚ
  bpmDisplay : ℚ
deriving Repr, DecidableEq

/-- Body of the accepted-candidate branch of `onAudioProcess`
(`public/babybeat-core.js`, first section): if a previous beat exists and
the interval lies in `[MIN_INTERVAL_MS, MAX_INTERVAL_MS] = [300, 1200]`,
push it (cap 12), take the median of the last 8 intervals and, when that is
positive, clamp `60000 / medInt` into `[MIN_FETAL_BPM, MAX_FETAL_BPM] =
[100, 170]` and fold it into `bpmDisplay` with `BPM_ALPHA = 0.15` (JavaScript
`bpmDisplay || rawBpm` supplies `rawBpm` when the display is still 0);
finally `lastBeatTime = nowMs` unconditionally.  The enclosing candidate
test (`gated` above threshold and `dt` above both `REFRACTORY_MS = 260` and
`MIN_INTERVAL_MS = 300`) and the `pulseBeat()` side effect are external to
this state update. -/
def beatStep (s : AState) (nowMs : ℚ) : AState :=
  let s1 :=
    if 0 < s.lastBeatTime then
      let interval := nowMs - s.lastBeatTime
      if 300 ≤ interval ∧ interval ≤ 1200 then
        let ints := cappedPush s.beatIntervals interval 12
        let medInt := median (jsSlice ints (-8))
        if 0 < medInt then
          let rawBpm := clamp (60000 / medInt) 100 170
          { s with beatIntervals := ints
                   bpmDisplay :=
                     ema (if s.bpmDisplay = 0 then rawBpm else s.bpmDisplay) rawBpm (15 / 100) }
        else { s with beatIntervals := ints }
      else s
    else s
  { s1 with lastBeatTime := nowMs }

/-- Entry of the `beatIntervals` array of the advanced variant:
`{ interval, quality, time }`. -/
structure BeatRec where
  interval : ℚ
  quality : ℚ
  time : ℚ
deriving Repr, DecidableEq

/-- Detection state of the advanced variant (the unnamed source file with
quality-weighted intervals), restricted to the fields read or written by
`registerBeat` and `calculateBeatQuality`. -/
structure P5State where
  lastBeatTime : ℚ
  beatIntervals : List BeatRec
  qualityHistory : List ℚ
  bpmDisplay : ℚ
  confidenceScore : ℚ
  beatPattern : List ℚ
  patternTemplate : Option (List ℚ)
  maternalBPM : ℚ
deriving Repr, DecidableEq

/-- `MIN_INTERVAL_MS = 60000 / FETAL_BPM_MAX` of the advanced variant
(`FETAL_BPM_MAX = 180`). -/
def p5MinInterval : ℚ := 60000 / 180

/-- `MAX_INTERVAL_MS = 60000 / FETAL_BPM_MIN` of the advanced variant
(`FETAL_BPM_MIN = 110`). -/
def p5MaxInterval : ℚ := 60000 / 110

/-- Model of `Math.sqrt` used by the consistency factor of
`calculateBeatQuality`: the rational square-root approximation.  The exact
double value is irrational in general; every theorem below evaluates states
with fewer than 3 recorded intervals, for which this branch is never
reached, so the approximation does not influence any stated result. -/
def jsSqrt (q : ℚ) : ℚ := Rat.sqrt q

/-- `calculateBeatQuality(bpm, metric, snr)` of the advanced variant: a
weighted blend of BPM plausibility (1 inside the normal band 120 to 160,
0.6 outside), SNR, detection metric, consistency of the recent intervals
(0.5 until 3 are recorded), discounted when close to the tracked maternal
BPM. -/
def calculateBeatQuality (st : P5State) (bpm metric snr : ℚ) : ℚ :=
  let bpmQuality : ℚ := if 120 ≤ bpm ∧ bpm ≤ 160 then 1 else 3 / 5
  let snrQuality := clamp (snr / 10) 0 1
  let metricQuality := clamp (metric / (1 / 2)) 0 1
  let consistencyQuality :=
    if 3 ≤ st.beatIntervals.length then
      let recentIntervals := (jsSlice st.beatIntervals (-5)).map BeatRec.interval
      let med := median recentIntervals
      let stdDev :=
        jsSqrt (((recentIntervals.map fun v => (v - med) * (v - med)).sum) /
          (recentIntervals.length : ℚ))
      clamp (1 - stdDev / 120) 0 1
    else (1 : ℚ) / 2
  let maternalPenalty :=
    if 0 < st.maternalBPM then
      let diff := |bpm - st.maternalBPM|
      if diff < 15 then clamp ((15 - diff) / 15) 0 (2 / 5) else 0
    else 0
  let q := bpmQuality * (3 / 10) + snrQuality * (1 / 4) + metricQuality * (1 / 5) +
    consistencyQuality * (1 / 4)
  clamp (q * (1 - maternalPenalty)) 0 1

/-- `registerBeat(nowMs, metric, snr)` of the advanced variant: when a
previous beat exists and the interval is at least `MIN_INTERVAL_MS`, score
it; a score above `MIN_CONFIDENCE_THRESHOLD = 0.35` pushes the record into
`beatIntervals` (cap 16) and its quality into `qualityHistory` (cap 30);
the BPM display then updates from the beats whose interval lies inside
`[MIN_INTERVAL_MS, MAX_INTERVAL_MS]`, once at least 4 such beats exist;
`lastBeatTime` is always set to `nowMs`. -/
def registerBeat (st : P5State) (nowMs metric snr : ℚ) : P5State :=
  let interval := nowMs - st.lastBeatTime
  let st1 :=
    if 0 < st.lastBeatTime ∧ p5MinInterval ≤ interval then
      let instantBPM := 60000 / interval
      let quality := calculateBeatQuality st instantBPM metric snr
      if 35 / 100 < quality then
        let ints := cappedPush st.beatIntervals ⟨interval, quality, nowMs⟩ 16
        let qh := cappedPush st.qualityHistory quality 30
        let st2 := { st with beatIntervals := ints, qualityHistory := qh }
        let validBeats := ints.filter fun b =>
          decide (p5MinInterval ≤ b.interval ∧ b.interval ≤ p5MaxInterval)
        if 4 ≤ validBeats.length then
          let recent := jsSlice validBeats (-10)
          let medInt := median (recent.map BeatRec.interval)
          if 0 < medInt then
            let rawBpm := clamp (60000 / medInt) 110 180
            let disp := if st2.bpmDisplay = 0 then rawBpm else st2.bpmDisplay
            let disp2 := ema disp rawBpm (12 / 100)
            let avgQuality := qh.sum / (qh.length : ℚ)
            let normInterval := interval / medInt
            let bp := cappedPush st2.beatPattern normInterval 16
            let pt :=
              if st2.patternTemplate = (none : Option (List ℚ)) ∧ 8 ≤ bp.length then
                some (jsSlice bp (-8))
              else st2.patternTemplate
            { st2 with bpmDisplay := disp2
                       confidenceScore := avgQuality
                       beatPattern := bp
                       patternTemplate := pt }
          else st2
        else st2
      else st
    else st
  { st1 with lastBeatTime := nowMs }

/-- The alternating interval stream of Scenario C: 500 ms on even steps,
1000 ms on odd steps. -/
def altDts (i : ℕ) : ℚ := if i % 2 = 0 then 500 else 1000

/-- Tracker state after directly registering `n` alternating intervals into
a default `BeatTracker` (every such interval passes the acceptance window
`dt > 260 && dt >= 300 && dt <= 1200`, so this is the reachable register
sequence for a beat stream with alternating spacing). -/
def altState : ℕ → Tracker
  | 0 => mkTracker defaultOpts
  | n + 1 => register (altState n) (altDts n)

lemma register_intervals (t : Tracker) (dt : ℚ) :
    (register t dt).intervals = cappedPush t.intervals dt 10 := by
  simp only [register]
  split
  · split <;> rfl
  · rfl

lemma register_same (t : Tracker) (dt : ℚ) :
    (register t dt).minBeats = t.minBeats ∧
    (register t dt).tolerance = t.tolerance ∧
    (register t dt).minInterval = t.minInterval ∧
    (register t dt).maxInterval = t.maxInterval ∧
    (register t dt).refractory = t.refractory ∧
    (register t dt).thresholdRise = t.thresholdRise ∧
    (register t dt).thresholdFall = t.thresholdFall ∧
    (register t dt).lastBeatAt = t.lastBeatAt ∧
    (register t dt).state = t.state ∧
    (register t dt).peak = t.peak := by
  simp only [register]
  split
  · split <;> exact ⟨rfl, rfl, rfl, rfl, rfl, rfl, rfl, rfl, rfl, rfl⟩
  · exact ⟨rfl, rfl, rfl, rfl, rfl, rfl, rfl, rfl, rfl, rfl⟩

lemma register_hp_bpm (t : Tracker) (dt : ℚ) :
    (register t dt).hasPattern = false → (register t dt).bpm = none := by
  simp only [register]
  split
  · split
    · intro h
      simp at h
    · intro _
      rfl
  · intro _
    rfl

lemma process_same (t : Tracker) (level now : ℚ) :
    (process t level now).1.minBeats = t.minBeats ∧
    (process t level now).1.tolerance = t.tolerance ∧
    (process t level now).1.minInterval = t.minInterval ∧
    (process t level now).1.maxInterval = t.maxInterval ∧
    (process t level now).1.refractory = t.refractory ∧
    (process t level now).1.thresholdRise = t.thresholdRise ∧
    (process t level now).1.thresholdFall = t.thresholdFall := by
  simp only [process, tout]
  split_ifs <;>
    simp [register_same]

lemma process_out_fields (t : Tracker) (level now : ℚ) :
    (process t level now).2.hasPattern = (process t level now).1.hasPattern ∧
    (process t level now).2.bpm = (process t level now).1.bpm := by
  simp only [process, tout]
  split_ifs <;> exact ⟨rfl, rfl⟩

lemma process_hp_bpm (t : Tracker) (level now : ℚ)
    (h : t.hasPattern = false → t.bpm = none) :
    (process t level now).1.hasPattern = false → (process t level now).1.bpm = none := by
  simp only [process, tout]
  split_ifs <;> first
    | exact h
    | exact register_hp_bpm _ _

lemma process_beat_or_frozen (t : Tracker) (level now : ℚ) :
    (process t level now).2.beat = true ∨
      ((process t level now).1.hasPattern = t.hasPattern ∧
        (process t level now).1.bpm = t.bpm ∧
        (process t level now).1.intervals = t.intervals ∧
        (process t level now).1.lastBeatAt = t.lastBeatAt ∧
        (process t level now).1.confidence = t.confidence) := by
  simp only [process, tout]
  split_ifs <;> simp

lemma process_refractory (t : Tracker) (level now : ℚ)
    (h : now - t.lastBeatAt ≤ t.refractory) :
    (process t level now).2.beat = false ∧
    (process t level now).1.lastBeatAt = t.lastBeatAt ∧
    (process t level now).1.intervals = t.intervals ∧
    (process t level now).1.hasPattern = t.hasPattern ∧
    (process t level now).1.bpm = t.bpm ∧
    (process t level now).1.confidence = t.confidence := by
  have hacc : ¬(t.refractory < now - t.lastBeatAt ∧ t.minInterval ≤ now - t.lastBeatAt ∧
      now - t.lastBeatAt ≤ t.maxInterval) := fun hc => absurd hc.1 (not_lt.mpr h)
  simp only [process, tout, if_neg hacc]
  split_ifs <;> simp

lemma mem_cappedPush {α : Type} {l : List α} {a x : α} {c : ℕ}
    (hx : x ∈ cappedPush l a c) : x ∈ l ∨ x = a := by
  simp only [cappedPush] at hx
  split at hx
  · have hx2 : x ∈ l ++ [a] := List.tail_subset _ hx
    simpa using hx2
  · simpa using hx

lemma process_intervals_cases (t : Tracker) (level now : ℚ) :
    (process t level now).1.intervals = t.intervals ∨
      ((t.minInterval ≤ now - t.lastBeatAt ∧ now - t.lastBeatAt ≤ t.maxInterval) ∧
        (process t level now).1.intervals = cappedPush t.intervals (now - t.lastBeatAt) 10) := by
  simp only [process, tout]
  split_ifs <;> simp_all [register_intervals]

lemma process_bounds (t : Tracker) (level now : ℚ)
    (hinv : ∀ x ∈ t.intervals, t.minInterval ≤ x ∧ x ≤ t.maxInterval) :
    ∀ x ∈ (process t level now).1.intervals,
      (process t level now).1.minInterval ≤ x ∧ x ≤ (process t level now).1.maxInterval := by
  intro x hx
  rw [(process_same t level now).2.2.1, (process_same t level now).2.2.2.1]
  rcases process_intervals_cases t level now with hc | ⟨⟨h1, h2⟩, hc⟩
  · exact hinv x (hc ▸ hx)
  · rw [hc] at hx
    rcases mem_cappedPush hx with hx2 | rfl
    · exact hinv x hx2
    · exact ⟨h1, h2⟩

lemma runFrom_same (inp : List (ℚ × ℚ)) : ∀ t : Tracker,
    (runFrom t inp).1.minBeats = t.minBeats ∧
    (runFrom t inp).1.tolerance = t.tolerance ∧
    (runFrom t inp).1.minInterval = t.minInterval ∧
    (runFrom t inp).1.maxInterval = t.maxInterval ∧
    (runFrom t inp).1.refractory = t.refractory ∧
    (runFrom t inp).1.thresholdRise = t.thresholdRise ∧
    (runFrom t inp).1.thresholdFall = t.thresholdFall := by
  induction inp with
  | nil => exact fun t => ⟨rfl, rfl, rfl, rfl, rfl, rfl, rfl⟩
  | cons p ps ih =>
    intro t
    have h1 := process_same t p.1 p.2
    have h2 := ih (process t p.1 p.2).1
    simp only [runFrom]
    exact ⟨h2.1.trans h1.1, h2.2.1.trans h1.2.1, h2.2.2.1.trans h1.2.2.1,
      h2.2.2.2.1.trans h1.2.2.2.1, h2.2.2.2.2.1.trans h1.2.2.2.2.1,
      h2.2.2.2.2.2.1.trans h1.2.2.2.2.2.1, h2.2.2.2.2.2.2.trans h1.2.2.2.2.2.2⟩

lemma runFrom_bounds (inp : List (ℚ × ℚ)) : ∀ t : Tracker,
    (∀ x ∈ t.intervals, t.minInterval ≤ x ∧ x ≤ t.maxInterval) →
    ∀ x ∈ (runFrom t inp).1.intervals,
      (runFrom t inp).1.minInterval ≤ x ∧ x ≤ (runFrom t inp).1.maxInterval := by
  induction inp with
  | nil => exact fun t h => h
  | cons p ps ih =>
    intro t hinv
    simp only [runFrom]
    exact ih (process t p.1 p.2).1 (process_bounds t p.1 p.2 hinv)

lemma runFrom_out_hp (inp : List (ℚ × ℚ)) : ∀ t : Tracker,
    (t.hasPattern = false → t.bpm = none) →
    ∀ o ∈ (runFrom t inp).2, o.hasPattern = false → o.bpm = none := by
  induction inp with
  | nil => intro t _ o ho; simp [runFrom] at ho
  | cons p ps ih =>
    intro t hinv o ho
    simp only [runFrom, List.mem_cons] at ho
    rcases ho with rfl | ho
    · rw [(process_out_fields t p.1 p.2).1, (process_out_fields t p.1 p.2).2]
      exact process_hp_bpm t p.1 p.2 hinv
    · exact ih (process t p.1 p.2).1 (process_hp_bpm t p.1 p.2 hinv) o ho

lemma Tracker.extAll (a b : Tracker)
    (e1 : a.minBeats = b.minBeats) (e2 : a.tolerance = b.tolerance)
    (e3 : a.minInterval = b.minInterval) (e4 : a.maxInterval = b.maxInterval)
    (e5 : a.refractory = b.refractory) (e6 : a.lastBeatAt = b.lastBeatAt)
    (e7 : a.state = b.state) (e8 : a.peak = b.peak)
    (e9 : a.thresholdRise = b.thresholdRise) (e10 : a.thresholdFall = b.thresholdFall)
    (e11 : a.intervals = b.intervals) (e12 : a.hasPattern = b.hasPattern)
    (e13 : a.bpm = b.bpm) (e14 : a.confidence = b.confidence) : a = b := by
  cases a
  cases b
  simp_all

lemma reset_runFrom (o : TrackerOpts) (inp : List (ℚ × ℚ)) :
    reset (runFrom (mkTracker o) inp).1 = mkTracker o := by
  obtain ⟨h1, h2, h3, h4, h5, h6, h7⟩ := runFrom_same inp (mkTracker o)
  exact Tracker.extAll _ _ h1 h2 h3 h4 h5 rfl rfl rfl h6 h7 rfl rfl rfl rfl

lemma processNR_eq (t : Tracker) (level now : ℚ) (h : t.refractory < t.minInterval) :
    processNR t level now = process t level now := by
  have hiff : (t.minInterval ≤ now - t.lastBeatAt ∧ now - t.lastBeatAt ≤ t.maxInterval) ↔
      (t.refractory < now - t.lastBeatAt ∧ t.minInterval ≤ now - t.lastBeatAt ∧
        now - t.lastBeatAt ≤ t.maxInterval) := by
    constructor
    · exact fun hc => ⟨lt_of_lt_of_le h hc.1, hc.1, hc.2⟩
    · exact fun hc => ⟨hc.2.1, hc.2.2⟩
  simp only [process, processNR]
  rw [if_congr hiff rfl rfl]

lemma runFromNR_eq (inp : List (ℚ × ℚ)) : ∀ t : Tracker, t.refractory < t.minInterval →
    runFromNR t inp = runFrom t inp := by
  induction inp with
  | nil => exact fun t _ => rfl
  | cons p ps ih =>
    intro t h
    have hstep := processNR_eq t p.1 p.2 h
    have hnext : (process t p.1 p.2).1.refractory < (process t p.1 p.2).1.minInterval := by
      rw [(process_same t p.1 p.2).2.2.2.2.1, (process_same t p.1 p.2).2.2.1]
      exact h
    simp only [runFromNR, runFrom, hstep, ih (process t p.1 p.2).1 hnext]

lemma register_hasPattern_iff (t : Tracker) (dt : ℚ) :
    (register t dt).hasPattern = true ↔
      (t.minBeats - 1 ≤ ((cappedPush t.intervals dt 10).length : ℤ) ∧
        ∀ i ∈ jsSlice (cappedPush t.intervals dt 10) (1 - t.minBeats),
          |i - median (jsSlice (cappedPush t.intervals dt 10) (1 - t.minBeats))| ≤
            t.tolerance * median (jsSlice (cappedPush t.intervals dt 10) (1 - t.minBeats))) := by
  simp only [register]
  split_ifs with h1 h2 <;> simp_all

lemma altState_cfg : ∀ n : ℕ, (altState n).minBeats = 4 ∧ (altState n).tolerance = 12 / 100
  | 0 => ⟨rfl, rfl⟩
  | n + 1 => by
    have ih := altState_cfg n
    have hs := register_same (altState n) (altDts n)
    exact ⟨hs.1.trans ih.1, hs.2.1.trans ih.2⟩

lemma altState_window : ∀ n : ℕ,
    (altState n).intervals = ((List.range n).map altDts).drop (n - 10)
  | 0 => rfl
  | n + 1 => by
    have ih := altState_window n
    have hreg : (altState (n + 1)).intervals =
        cappedPush (altState n).intervals (altDts n) 10 :=
      register_intervals (altState n) (altDts n)
    rw [hreg, ih]
    have hbig : (List.range (n + 1)).map altDts =
        (List.range n).map altDts ++ [altDts n] := by
      rw [List.range_succ, List.map_append, List.map_singleton]
    have hlenN : ((List.range n).map altDts).length = n := by simp
    by_cases hn : n < 10
    · have hd0 : n - 10 = 0 := by omega
      have hd1 : n + 1 - 10 = 0 := by omega
      have hlen : ((((List.range n).map altDts).drop (n - 10)) ++ [altDts n]).length = n + 1 := by
        simp [hd0, hlenN]
      simp only [cappedPush, hlen]
      rw [if_neg (by omega), hbig, hd0, hd1]
      simp
    · have hle : n - 10 ≤ ((List.range n).map altDts).length := by omega
      have hlen : ((((List.range n).map altDts).drop (n - 10)) ++ [altDts n]).length = 11 := by
        simp [hlenN]
        omega
      simp only [cappedPush, hlen]
      rw [if_pos (by omega)]
      rw [← List.drop_append_of_le_length hle, List.tail_drop, hbig]
      congr 1
      omega

lemma range_map_drop_last3 (f : ℕ → ℚ) (k : ℕ) :
    ((List.range (k + 3)).map f).drop k = [f k, f (k + 1), f (k + 2)] := by
  have hr : List.range (k + 3) = List.range k ++ [k, k + 1, k + 2] := by
    rw [List.range_add]
    congr 1
  rw [hr, List.map_append]
  have hlen : ((List.range k).map f).length = k := by simp
  have hdl := List.drop_left ((List.range k).map f) (List.map f [k, k + 1, k + 2])
  rw [hlen] at hdl
  rw [hdl]
  simp

lemma altState_recent (n : ℕ) (hn : 2 ≤ n) :
    jsSlice (cappedPush (altState n).intervals (altDts n) 10) (1 - (altState n).minBeats) =
      [altDts (n - 2), altDts (n - 1), altDts n] := by
  have hcfg := altState_cfg n
  have hunfold : altState (n + 1) = register (altState n) (altDts n) := rfl
  have hints : cappedPush (altState n).intervals (altDts n) 10 =
      ((List.range (n + 1)).map altDts).drop (n + 1 - 10) := by
    rw [← register_intervals, ← hunfold]
    exact altState_window (n + 1)
  rw [hcfg.1, hints]
  have hlen : ((((List.range (n + 1)).map altDts).drop (n + 1 - 10)).length : ℤ) =
      ((min (n + 1) 10 : ℕ) : ℤ) := by
    simp [List.length_drop]
    omega
  simp only [jsSlice]
  rw [if_pos (by norm_num)]
  rw [hlen]
  have htn : (((min (n + 1) 10 : ℕ) : ℤ) + (1 - 4)).toNat = min (n + 1) 10 - 3 := by omega
  rw [htn, List.drop_drop]
  have harg : n + 1 - 10 + (min (n + 1) 10 - 3) = n - 2 := by omega
  rw [harg]
  have hk : n + 1 = (n - 2) + 3 := by omega
  rw [hk, range_map_drop_last3 altDts (n - 2)]
  have e1 : n - 2 + 1 = n - 1 := by omega
  have e2 : n - 2 + 2 = n := by omega
  rw [e1, e2]

lemma altState_hasPattern_succ (n : ℕ) (hn : 2 ≤ n) :
    (altState (n + 1)).hasPattern = false := by
  have hrec := altState_recent n hn
  have hcfg := altState_cfg n
  have hunfold : altState (n + 1) = register (altState n) (altDts n) := rfl
  cases h : (altState (n + 1)).hasPattern with
  | false => rfl
  | true =>
    exfalso
    rw [hunfold] at h
    have hall := ((register_hasPattern_iff (altState n) (altDts n)).mp h).2
    rw [hrec, hcfg.2] at hall
    rcases Nat.mod_two_eq_zero_or_one n with hpar | hpar
    · have e2 : altDts (n - 2) = 500 := by
        simp only [altDts]
        rw [if_pos (by omega)]
      have e1 : altDts (n - 1) = 1000 := by
        simp only [altDts]
        rw [if_neg (by omega)]
      have e0 : altDts n = 500 := by
        simp only [altDts]
        rw [if_pos (by omega)]
      rw [e2, e1, e0] at hall
      have hmed : median [(500 : ℚ), 1000, 500] = 500 := by
        norm_num [median, sortAsc, insertAsc]
      rw [hmed] at hall
      have hbad := hall 1000 (by simp)
      norm_num at hbad
    · have e2 : altDts (n - 2) = 1000 := by
        simp only [altDts]
        rw [if_neg (by omega)]
      have e1 : altDts (n - 1) = 500 := by
        simp only [altDts]
        rw [if_pos (by omega)]
      have e0 : altDts n = 1000 := by
        simp only [altDts]
        rw [if_neg (by omega)]
      rw [e2, e1, e0] at hall
      have hmed : median [(1000 : ℚ), 500, 1000] = 1000 := by
        norm_num [median, sortAsc, insertAsc]
      rw [hmed] at hall
      have hbad := hall 500 (by simp)
      norm_num at hbad

lemma altState_hasPattern : ∀ n : ℕ, (altState n).hasPattern = false
  | 0 => rfl
  | 1 => by
    norm_num [altState, register, mkTracker, defaultOpts, cappedPush, altDts, jsSlice]
  | 2 => by
    norm_num [altState, register, mkTracker, defaultOpts, cappedPush, altDts, jsSlice]
  | (n + 3) => altState_hasPattern_succ (n + 2) (by omega)

/-- Frame sequence producing three accepted beats 500 ms apart on a default
tracker: rise to level 0.7, fall to 0.1, with falling edges at 500, 1000 and
1500 ms. -/
def lockSeq : List (ℚ × ℚ) :=
  [(7/10, 400), (1/10, 500), (7/10, 900), (1/10, 1000), (7/10, 1400), (1/10, 1500)]

set_option maxHeartbeats 2000000 in
lemma lockSeq_run :
    (runFrom (mkTracker defaultOpts) lockSeq).1 =
      ⟨4, 12/100, 300, 1200, 260, 1500, false, 14/25, 12/100, 8/100,
        [500, 500, 500], true, some 120, 11/25⟩ := by
  norm_num [runFrom, process, register, tout, mkTracker, defaultOpts, lockSeq,
    cappedPush, jsSlice, median, sortAsc, insertAsc, jsRound, Int.toNat_of_nonpos]

lemma firstBeat_run :
    runFrom (mkTracker defaultOpts) [(7/10, 400), (1/10, 900)] =
      (⟨4, 12/100, 300, 1200, 260, 900, false, 14/25, 12/100, 8/100,
         [900], false, none, 0⟩,
       [⟨false, none, false, 0⟩, ⟨true, none, false, 0⟩]) := by
  norm_num [runFrom, process, register, tout, mkTracker, defaultOpts,
    cappedPush, jsSlice, median, sortAsc, insertAsc, jsRound, Int.toNat_of_nonpos]

/-- C1 (counterexample): in the advanced variant, a beat 700 ms after the
previous one passes the caller gate (700 is above `REFRACTORY_MS = 200`, at
least `MIN_INTERVAL_MS` and at most `1.5 * MAX_INTERVAL_MS`), scores quality
151/200 > 0.35, and `registerBeat` pushes the 700 ms interval into
`beatIntervals` even though 700 exceeds `maxIntervalMs = 6000/11` (about
545 ms).  The recorded-intervals list therefore does hold a value outside
`[minIntervalMs, maxIntervalMs]`, refuting the claim as stated. -/
theorem c1_counterexample :
    ((registerBeat ⟨1000, [], [], 0, 0, [], none, 0⟩ 1700 (1/2) 10).beatIntervals.map
        BeatRec.interval = [700]) ∧
    p5MinInterval ≤ 700 ∧ p5MaxInterval < 700 ∧ (700 : ℚ) ≤ (3/2) * p5MaxInterval ∧
    (200 : ℚ) < 700 := by
  norm_num [registerBeat, calculateBeatQuality, p5MinInterval, p5MaxInterval,
    cappedPush, jsSlice, median, sortAsc, insertAsc, clamp, ema, List.filter]

/-- C1 (amended): for the `BeatTracker` of `babybeat-core.js` the invariant
does hold: after any frame sequence on any constructed tracker, every value
in `intervals` lies within `[minInterval, maxInterval]`, because `process`
admits an interval into `_register` only after the window test
`dt >= minInterval && dt <= maxInterval`.  (The advanced variant of the
repository deliberately stores intervals up to 1.5 times `maxIntervalMs` in
`beatIntervals` and filters them only when computing the BPM, so the claim
is amended to scope the invariant to the `BeatTracker` lists.) -/
theorem c1_theorem (o : TrackerOpts) (inp : List (ℚ × ℚ)) :
    ∀ x ∈ (runFrom (mkTracker o) inp).1.intervals,
      (mkTracker o).minInterval ≤ x ∧ x ≤ (mkTracker o).maxInterval := by
  intro x hx
  have hb := runFrom_bounds inp (mkTracker o)
    (fun y hy => absurd hy (by simp [mkTracker])) x hx
  have hs := runFrom_same inp (mkTracker o)
  rw [hs.2.2.1, hs.2.2.2.1] at hb
  exact hb

lemma c1w_mem : (500 : ℚ) ∈ (runFrom (mkTracker defaultOpts) lockSeq).1.intervals := by
  rw [lockSeq_run]
  simp

/-- C1 (witness): the invariant theorem applied to the concrete three-beat
sequence, whose recorded interval 500 lies inside the default window. -/
theorem c1_witness :
    (mkTracker defaultOpts).minInterval ≤ 500 ∧ (500 : ℚ) ≤ (mkTracker defaultOpts).maxInterval :=
  c1_theorem defaultOpts lockSeq 500 c1w_mem

/-- C2: for every constructed tracker and every frame sequence, each emitted
result object with `hasPattern = false` carries `bpm = null`; a numeric BPM
is only ever exposed together with the lock flag. -/
theorem c2_theorem (o : TrackerOpts) (inp : List (ℚ × ℚ)) :
    ∀ out ∈ (runFrom (mkTracker o) inp).2, out.hasPattern = false → out.bpm = none :=
  runFrom_out_hp inp (mkTracker o) (fun _ => rfl)

lemma c2w_mem : (⟨true, none, false, 0⟩ : TOut) ∈
    (runFrom (mkTracker defaultOpts) [(7/10, 400), (1/10, 900)]).2 := by
  rw [firstBeat_run]
  simp

/-- C2 (witness): the invariant applied to the first registered beat of a
concrete run, an unlocked output, whose `bpm` is indeed `null`. -/
theorem c2_witness : (⟨true, none, false, 0⟩ : TOut).bpm = none :=
  c2_theorem defaultOpts [(7/10, 400), (1/10, 900)] ⟨true, none, false, 0⟩ c2w_mem rfl

/-- C3 (counterexample): after the three-beat lock (last beat at 1500 ms), a
below-threshold frame arriving 10000 ms later still reports
`hasPattern = true` and `bpm = 120`: there is no `lockTimeoutMs` anywhere in
the tracker, so the lock and the BPM freeze on their last values instead of
clearing, refuting the claimed timeout behaviour. -/
theorem c3_counterexample :
    11500 - (runFrom (mkTracker defaultOpts) lockSeq).1.lastBeatAt = 10000 ∧
    (process (runFrom (mkTracker defaultOpts) lockSeq).1 0 11500).2.beat = false ∧
    (process (runFrom (mkTracker defaultOpts) lockSeq).1 0 11500).2.hasPattern = true ∧
    (process (runFrom (mkTracker defaultOpts) lockSeq).1 0 11500).2.bpm = some 120 := by
  rw [lockSeq_run]
  norm_num [process, tout]

/-- C3 (amended): the tracker has no lock timeout at all: every `process`
step either registers a beat (`beat = true`) or leaves `hasPattern` and
`bpm` exactly as they were, so arbitrarily long runs of below-threshold
frames keep a stale lock and BPM forever. -/
theorem c3_theorem (t : Tracker) (level now : ℚ) :
    (process t level now).2.beat = true ∨
      ((process t level now).1.hasPattern = t.hasPattern ∧
        (process t level now).1.bpm = t.bpm) :=
  (process_beat_or_frozen t level now).imp id fun h => ⟨h.1, h.2.1⟩

/-- C4 (counterexample): after the three-beat sequence the lock is already
true while only 3 intervals are recorded, strictly fewer than the configured
minimum-beats-to-confirm value 4: the lock condition counts `minBeats - 1`
intervals (that is, `minBeats` beats), not `minBeats` intervals as the claim
states. -/
theorem c4_counterexample :
    (runFrom (mkTracker defaultOpts) lockSeq).1.hasPattern = true ∧
    (runFrom (mkTracker defaultOpts) lockSeq).1.intervals.length = 3 ∧
    (runFrom (mkTracker defaultOpts) lockSeq).1.minBeats = 4 ∧
    ¬((4 : ℤ) ≤ ((runFrom (mkTracker defaultOpts) lockSeq).1.intervals.length : ℤ)) := by
  rw [lockSeq_run]
  norm_num

/-- C4 (amended): after a `_register` step the lock flag is true exactly
when at least `minBeats - 1` intervals are recorded and the most recent
`minBeats - 1` of them all lie within `tolerance * median` of their own
median; and, as the claim says, alternating 500 ms / 1000 ms intervals never
produce a lock under the default ±12 percent tolerance, no matter how many
are fed. -/
theorem c4_theorem :
    (∀ (t : Tracker) (dt : ℚ),
      (register t dt).hasPattern = true ↔
        (t.minBeats - 1 ≤ ((cappedPush t.intervals dt 10).length : ℤ) ∧
          ∀ i ∈ jsSlice (cappedPush t.intervals dt 10) (1 - t.minBeats),
            |i - median (jsSlice (cappedPush t.intervals dt 10) (1 - t.minBeats))| ≤
              t.tolerance * median (jsSlice (cappedPush t.intervals dt 10) (1 - t.minBeats))))
    ∧ (∀ n : ℕ, (altState n).hasPattern = false) :=
  ⟨register_hasPattern_iff, altState_hasPattern⟩

/-- C5 (counterexample): the `BeatTracker` class has no first-beat special
case: a fresh tracker (with `_lastBeatAt = 0`) whose first falling edge
arrives at 900 ms measures `dt = 900 - 0` inside the acceptance window and
pushes 900 into `intervals` right away, so the first-ever accepted beat does
record an interval, refuting the claim for this variant. -/
theorem c5_counterexample :
    (mkTracker defaultOpts).lastBeatAt = 0 ∧
    (runFrom (mkTracker defaultOpts) [(7/10, 400), (1/10, 900)]).1.intervals = [900] ∧
    ((runFrom (mkTracker defaultOpts) [(7/10, 400), (1/10, 900)]).2.map TOut.beat =
      [false, true]) := by
  rw [firstBeat_run]
  norm_num [mkTracker, defaultOpts]

/-- C5 (amended): the claimed first-beat behaviour belongs to the
`onAudioProcess` detector of `babybeat-core.js`, whose registration body
checks `lastBeatTime > 0`: when no previous beat exists, the step records
the timestamp (and pulses), leaving `beatIntervals` and `bpmDisplay`
untouched.  (The `BeatTracker` class instead treats the first accepted
falling edge like any other, as the counterexample shows.) -/
theorem c5_theorem (s : AState) (nowMs : ℚ) (h : ¬0 < s.lastBeatTime) :
    beatStep s nowMs = { s with lastBeatTime := nowMs } := by
  simp [beatStep, h]

/-- C5 (witness): the first-beat step from the initial state only records
the timestamp. -/
theorem c5_witness : beatStep ⟨0, [], 0⟩ 400 = ⟨400, [], 0⟩ :=
  c5_theorem ⟨0, [], 0⟩ 400 (lt_irrefl 0)

/-- C6 (counterexample): starting from the state reached after one accepted
beat at 900 ms (peak memory 14/25, hysteresis below), a peak of level 0.7
arriving 50 ms later, inside the refractory period, is NOT ignored entirely:
no beat fires, but the hysteresis state flips to above and the peak memory
changes, so the estimator state is changed by that peak, refuting the
no-state-change claim. -/
theorem c6_counterexample :
    950 - (runFrom (mkTracker defaultOpts) [(7/10, 400), (1/10, 900)]).1.lastBeatAt = 50 ∧
    (process (runFrom (mkTracker defaultOpts) [(7/10, 400), (1/10, 900)]).1
      (7/10) 950).2.beat = false ∧
    (process (runFrom (mkTracker defaultOpts) [(7/10, 400), (1/10, 900)]).1
      (7/10) 950).1.state = true ∧
    (runFrom (mkTracker defaultOpts) [(7/10, 400), (1/10, 900)]).1.state = false ∧
    (process (runFrom (mkTracker defaultOpts) [(7/10, 400), (1/10, 900)]).1
      (7/10) 950).1.peak = 7/10 ∧
    (runFrom (mkTracker defaultOpts) [(7/10, 400), (1/10, 900)]).1.peak = 14/25 := by
  rw [firstBeat_run]
  norm_num [process, tout]

/-- State of a default tracker after one accepted beat at 900 ms, used to
witness the refractory property on concrete values. -/
def afterFirstBeat : Tracker :=
  ⟨4, 12/100, 300, 1200, 260, 900, false, 14/25, 12/100, 8/100, [900], false, none, 0⟩

/-- C6 (amended): a peak inside the refractory period never fires a beat
event and leaves the whole beat-pattern state (`_lastBeatAt`, `intervals`,
`hasPattern`, `bpm`, `confidence`) untouched; only the hysteresis fields
(`_state`, `_peak`) may move. -/
theorem c6_theorem (t : Tracker) (level now : ℚ)
    (h : now - t.lastBeatAt ≤ t.refractory) :
    (process t level now).2.beat = false ∧
    (process t level now).1.lastBeatAt = t.lastBeatAt ∧
    (process t level now).1.intervals = t.intervals ∧
    (process t level now).1.hasPattern = t.hasPattern ∧
    (process t level now).1.bpm = t.bpm ∧
    (process t level now).1.confidence = t.confidence :=
  process_refractory t level now h

lemma c6w_h : (950 : ℚ) - afterFirstBeat.lastBeatAt ≤ afterFirstBeat.refractory := by
  norm_num [afterFirstBeat]

/-- C6 (witness): the refractory property at the concrete post-beat state,
with a peak 50 ms after the accepted beat. -/
theorem c6_witness :
    (process afterFirstBeat (7/10) 950).2.beat = false ∧
    (process afterFirstBeat (7/10) 950).1.lastBeatAt = afterFirstBeat.lastBeatAt ∧
    (process afterFirstBeat (7/10) 950).1.intervals = afterFirstBeat.intervals ∧
    (process afterFirstBeat (7/10) 950).1.hasPattern = afterFirstBeat.hasPattern ∧
    (process afterFirstBeat (7/10) 950).1.bpm = afterFirstBeat.bpm ∧
    (process afterFirstBeat (7/10) 950).1.confidence = afterFirstBeat.confidence :=
  c6_theorem afterFirstBeat (7/10) 950 c6w_h

/-- C7: `reset()` restores exactly the constructed state (the configuration
and the never-mutated hysteresis thresholds survive, all rolling state
returns to its initial values), so a reset tracker and a freshly constructed
tracker with the same options produce identical output sequences, and
identical final states, on every future frame sequence. -/
theorem c7_theorem (o : TrackerOpts) (inp fut : List (ℚ × ℚ)) :
    runFrom (reset (runFrom (mkTracker o) inp).1) fut = runFrom (mkTracker o) fut := by
  rw [reset_runFrom]

/-- C8 (counterexample): with recorded intervals [1200, 1200, 1200] and a
smoothed display of 140, an accepted interval of 1200 ms yields a
representative median of 1200 and a raw BPM of 50, outside
`[MIN_FETAL_BPM, MAX_FETAL_BPM] = [100, 170]`; the code clamps it to 100 and
folds it into the display, moving `bpmDisplay` from 140 to 134 instead of
discarding the out-of-range value and leaving the display unchanged. -/
theorem c8_counterexample :
    60000 / median (jsSlice (cappedPush [(1200 : ℚ), 1200, 1200] (2400 - 1200) 12) (-8)) = 50 ∧
    ¬((100 : ℚ) ≤ 50) ∧
    (beatStep ⟨1200, [1200, 1200, 1200], 140⟩ 2400).bpmDisplay = 134 ∧
    (134 : ℚ) ≠ 140 := by
  norm_num [beatStep, cappedPush, jsSlice, median, sortAsc, insertAsc, clamp, ema,
    Int.toNat_of_nonpos]

/-- C8 (amended): in the `onAudioProcess` update, only a non-positive
representative median is guarded (the display is left unchanged); a
computed BPM outside `[bpmMin, bpmMax]` is not discarded but clamped into
the range and smoothed into the display with `BPM_ALPHA = 0.15` (a zero
display seeds from the clamped raw value first). -/
theorem c8_theorem (s : AState) (now : ℚ)
    (h1 : 0 < s.lastBeatTime) (h2 : 300 ≤ now - s.lastBeatTime)
    (h3 : now - s.lastBeatTime ≤ 1200) :
    (median (jsSlice (cappedPush s.beatIntervals (now - s.lastBeatTime) 12) (-8)) ≤ 0 →
      (beatStep s now).bpmDisplay = s.bpmDisplay) ∧
    (0 < median (jsSlice (cappedPush s.beatIntervals (now - s.lastBeatTime) 12) (-8)) →
      (beatStep s now).bpmDisplay =
        ema
          (if s.bpmDisplay = 0 then
            clamp (60000 / median (jsSlice (cappedPush s.beatIntervals
              (now - s.lastBeatTime) 12) (-8))) 100 170
          else s.bpmDisplay)
          (clamp (60000 / median (jsSlice (cappedPush s.beatIntervals
            (now - s.lastBeatTime) 12) (-8))) 100 170)
          (15 / 100)) := by
  simp only [beatStep, if_pos h1, if_pos (And.intro h2 h3)]
  constructor
  · intro hm
    rw [if_neg (not_lt.mpr hm)]
  · intro hm
    rw [if_pos hm]

lemma c8w_h1 : (0 : ℚ) < (⟨600, [], 100⟩ : AState).lastBeatTime := by norm_num
lemma c8w_h2 : (300 : ℚ) ≤ 1100 - (⟨600, [], 100⟩ : AState).lastBeatTime := by norm_num
lemma c8w_h3 : (1100 : ℚ) - (⟨600, [], 100⟩ : AState).lastBeatTime ≤ 1200 := by norm_num

/-- C8 (witness): the amended guard-and-clamp property at a concrete state
with one prior beat at 600 ms, next beat at 1100 ms. -/
theorem c8_witness :
    (median (jsSlice (cappedPush (⟨600, [], 100⟩ : AState).beatIntervals
        (1100 - (⟨600, [], 100⟩ : AState).lastBeatTime) 12) (-8)) ≤ 0 →
      (beatStep ⟨600, [], 100⟩ 1100).bpmDisplay = (⟨600, [], 100⟩ : AState).bpmDisplay) ∧
    (0 < median (jsSlice (cappedPush (⟨600, [], 100⟩ : AState).beatIntervals
        (1100 - (⟨600, [], 100⟩ : AState).lastBeatTime) 12) (-8)) →
      (beatStep ⟨600, [], 100⟩ 1100).bpmDisplay =
        ema
          (if (⟨600, [], 100⟩ : AState).bpmDisplay = 0 then
            clamp (60000 / median (jsSlice (cappedPush (⟨600, [], 100⟩ : AState).beatIntervals
              (1100 - (⟨600, [], 100⟩ : AState).lastBeatTime) 12) (-8))) 100 170
          else (⟨600, [], 100⟩ : AState).bpmDisplay)
          (clamp (60000 / median (jsSlice (cappedPush (⟨600, [], 100⟩ : AState).beatIntervals
            (1100 - (⟨600, [], 100⟩ : AState).lastBeatTime) 12) (-8))) 100 170)
          (15 / 100)) :=
  c8_theorem ⟨600, [], 100⟩ 1100 c8w_h1 c8w_h2 c8w_h3

/-- Deliberately invalid constructor options: 2 beats to confirm, a zero
refractory period, a negative minimum interval and an oversized maximum. -/
def badOpts : TrackerOpts := ⟨some 2, none, some (-5), some 2000, some 0⟩

/-- C9 (counterexample): the constructor accepts out-of-range configuration
values without any check (a negative `minInterval` is stored verbatim) and
the resulting tracker runs normally, locking onto a single 60 ms
pseudo-interval and reporting a clamped BPM of 170 — construction does not
fail fast, it silently produces wrong BPM values, refuting the claim. -/
theorem c9_counterexample :
    (mkTracker badOpts).minInterval = -5 ∧
    (mkTracker badOpts).minBeats = 2 ∧
    (mkTracker badOpts).refractory = 0 ∧
    (runFrom (mkTracker badOpts) [(7/10, 10), (1/10, 60)]).1.hasPattern = true ∧
    (runFrom (mkTracker badOpts) [(7/10, 10), (1/10, 60)]).1.bpm = some 170 := by
  norm_num [runFrom, process, register, tout, mkTracker, badOpts,
    cappedPush, jsSlice, median, sortAsc, insertAsc, jsRound, Int.toNat_of_nonpos]

/-- C9 (amended): the `BeatTracker` constructor performs no validation at
all: every supplied option, finite or not, in range or not, is stored
exactly as given (with the tunable defaults for absent options) and the
tracker starts in the ordinary unlocked state, ready to process frames. -/
theorem c9_theorem (o : TrackerOpts) :
    (mkTracker o).minBeats = o.minBeats.getD 4 ∧
    (mkTracker o).tolerance = o.tolerance.getD (12 / 100) ∧
    (mkTracker o).minInterval = o.minInterval.getD 300 ∧
    (mkTracker o).maxInterval = o.maxInterval.getD 1200 ∧
    (mkTracker o).refractory = o.refractory.getD 260 ∧
    (mkTracker o).hasPattern = false ∧ (mkTracker o).bpm = none :=
  ⟨rfl, rfl, rfl, rfl, rfl, rfl, rfl⟩

/-- Options with the minimum interval equal to the refractory period, the
boundary case of the claimed redundancy precondition. -/
def eqOpts : TrackerOpts := ⟨none, none, some 300, none, some 300⟩

/-- C10 (counterexample): with `minIntervalMs = refractoryMs = 300` (which
satisfies the claimed precondition `minIntervalMs >= refractoryMs`), a
falling edge exactly 300 ms after the epoch is rejected by the full test
(`dt > refractory` fails at equality) but accepted by the tracker with the
refractory conjunct removed, so the two trackers produce different output
sequences, refuting the claim at its boundary. -/
theorem c10_counterexample :
    (mkTracker eqOpts).refractory ≤ (mkTracker eqOpts).minInterval ∧
    ((runFrom (mkTracker eqOpts) [(7/10, 0), (1/10, 300)]).2.map TOut.beat =
      [false, false]) ∧
    ((runFromNR (mkTracker eqOpts) [(7/10, 0), (1/10, 300)]).2.map TOut.beat =
      [false, true]) := by
  norm_num [runFrom, runFromNR, process, processNR, register, tout, mkTracker, eqOpts,
    cappedPush, jsSlice, median, sortAsc, insertAsc, jsRound, Int.toNat_of_nonpos]

/-- C10 (amended): under the strict precondition
`refractoryMs < minIntervalMs` (satisfied by the defaults 260 < 300), the
refractory conjunct is implied by `dt >= minInterval`, and the tracker with
the refractory check removed is observationally identical: same outputs and
same final state on every input sequence. -/
theorem c10_theorem (t : Tracker) (h : t.refractory < t.minInterval)
    (inp : List (ℚ × ℚ)) : runFromNR t inp = runFrom t inp :=
  runFromNR_eq inp t h

lemma c10w_h : (mkTracker defaultOpts).refractory < (mkTracker defaultOpts).minInterval := by
  norm_num [mkTracker, defaultOpts]

/-- C10 (witness): the equivalence at the default configuration on the
concrete three-beat sequence. -/
theorem c10_witness :
    runFromNR (mkTracker defaultOpts) lockSeq = runFrom (mkTracker defaultOpts) lockSeq :=
  c10_theorem (mkTracker defaultOpts) c10w_h lockSeq
